import Mathlib

/-!
Verification development for the KiarTV Discord bot (TypeScript sources under
`src/`).  The definitions below are a shallow embedding of the data model and
the pure logic of the bot: the spot-sorting comparator, the per-record text
formatter, the capped message-emitting loop, the channel-clearing loop, the
channel-binding store, the dataset-list fallback, the multi-channel tally
loop, and the autocomplete handler.

Modeling conventions:
- JavaScript strings are Lean `String`s; the JS string methods that the code
  uses (`toLowerCase`, `trim`, `includes`, suffix tests, `localeCompare`)
  are re-implemented over the underlying character list so that they can be
  evaluated by the kernel.  `localeCompare` is modeled as plain code-point
  comparison.
- Network effects (video downloads, the catalog HTTP call, per-channel
  update outcomes) are abstracted into explicit oracle arguments or an
  explicit response datatype; everything else is translated directly from
  the TypeScript.
- JS objects used as dictionaries (the channel store JSON) are modeled as
  string-keyed partial maps.
-/

/-- A point-of-interest record, following the `Spot` interface in
`src/services/apiService.ts`.  The fields that the JSON may omit are
`Option`s; `type` is the category string that drives sorting and grouping. -/
structure Spot where
  name : String
  x : Int
  y : Int
  type : String
  map : String
  server : String
  caveDamage : Option String := none
  description : Option String := none
  videoUrl : Option String := none
  videoFile : Option String := none
deriving DecidableEq, Repr

/-- Three-way code-point comparison of character sequences, returning -1, 0
or 1.  This models the `localeCompare` calls in the sort callbacks (collation
is taken to be plain code-unit order). -/
def cmpChars : List Char → List Char → Int
  | [], [] => 0
  | [], _ :: _ => -1
  | _ :: _, [] => 1
  | a :: as, b :: bs =>
    if a.toNat < b.toNat then -1
    else if b.toNat < a.toNat then 1
    else cmpChars as bs

/-- Model of JS `a.localeCompare(b)`. -/
def localeCompare (a b : String) : Int := cmpChars a.data b.data

/-- Model of JS `String.prototype.toLowerCase` (character-wise lowering). -/
def jsToLower (s : String) : String := ⟨s.data.map Char.toLower⟩

/-- Whitespace test used by `jsTrim`. -/
def isWsChar (c : Char) : Bool := c == ' ' || c == '\t' || c == '\n' || c == '\r'

/-- Model of JS `String.prototype.trim`: strip whitespace from both ends. -/
def jsTrim (s : String) : String :=
  ⟨((s.data.dropWhile isWsChar).reverse.dropWhile isWsChar).reverse⟩

/-- Suffix test over character lists, used to model the anchored regular
expression in `isVideoFile`. -/
def endsWithChars (l suffix : List Char) : Bool :=
  suffix.reverse.isPrefixOf l.reverse

/-- Mirrors `isVideoFile` (regex `\.(mp4|webm|mov)$` with the `i` flag):
the URL ends, case-insensitively, with one of the three extensions. -/
def isVideoFile (url : String) : Bool :=
  [".mp4", ".webm", ".mov"].any fun ext =>
    endsWithChars (jsToLower url).data ext.data

/-- Contiguous-substring test over character lists. -/
def charsContain : List Char → List Char → Bool
  | [], needle => needle.isEmpty
  | c :: t, needle => needle.isPrefixOf (c :: t) || charsContain t needle

/-- Model of JS `s.includes(sub)`. -/
def stringIncludes (s sub : String) : Bool := charsContain s.data sub.data

/-- The hardcoded list of valid maps shared by the command files. -/
def validMaps : List String :=
  ["The Island", "The Center", "Scorched Earth", "Ragnarok", "Aberration",
   "Extinction", "Valguero", "Genesis: Part 1", "Crystal Isles",
   "Genesis: Part 2", "Lost Island", "Fjordur"]

/-- The hardcoded list of valid servers shared by the command files. -/
def validServers : List String := ["INX", "Fusion", "Mesa"]

/-- The sort callback shared by the caves, update and populatethread
commands: farm spots always last, otherwise compare by type and then by
name (both via `localeCompare`, with `a.name` and `a.type` defaulting to
the empty string, which for present string fields is the identity). -/
def compareSpots (a b : Spot) : Int :=
  if a.type = "farm" ∧ b.type ≠ "farm" then 1
  else if a.type ≠ "farm" ∧ b.type = "farm" then -1
  else if a.type = b.type then localeCompare a.name b.name
  else localeCompare a.type b.type

/-- Boolean at-most order induced by the comparator. -/
def spotLe (a b : Spot) : Bool := decide (compareSpots a b ≤ 0)

/-- Model of `spots.sort(compareSpots)`: `Array.prototype.sort` is required
by the language spec to be stable and to order the array according to the
callback, so it is modeled as a stable merge sort under `spotLe`. -/
def sortSpots (l : List Spot) : List Spot := l.mergeSort spotLe

/-- The element array built by `formatCaveText` in the update command
(`src/unnamed/part_002`): entries that are JS `undefined` are `none`, and
`.filter(Boolean)` drops them (together with empty-string descriptions and
video URLs, which are falsy).  The damage entry is present only when the
trimmed descriptor is truthy and differs, case-insensitively, from
`nothing`. -/
def formatCaveParts (spot : Spot) (idx : Nat) : List String :=
  let nm := if spot.name = "" then "Unnamed Cave" else spot.name
  let caveDamageText := spot.caveDamage.map jsTrim
  ([some ("## ** " ++ toString (idx + 1) ++ ". " ++ nm ++ "**"),
    some ("- Coords: " ++ toString spot.y ++ ", " ++ toString spot.x),
    (match caveDamageText with
     | some t => if t ≠ "" ∧ jsToLower t ≠ "nothing" then some ("- Cave Damage: " ++ t) else none
     | none => none),
    (match spot.description with
     | some d => if d ≠ "" then some ("\nDescription:\n```\n" ++ d ++ "\n```\n") else none
     | none => none),
    (match spot.videoUrl with
     | some u => if u ≠ "" then some ("Video:\n " ++ u ++ "\n") else none
     | none => none)] : List (Option String)).filterMap id

/-- `formatCaveText` of the update command: the parts joined with newlines
(`.join('\n')`). -/
def formatCaveText (spot : Spot) (idx : Nat) : String :=
  String.intercalate "\n" (formatCaveParts spot idx)

/-- The element array built by `formatCaveText` in the caves and
populatethread commands (`src/unnamed/part_001`, `part_003`): the damage
entry is unconditional, with an `Unknown` fallback for a falsy
descriptor. -/
def formatCaveCavesParts (spot : Spot) (idx : Nat) : List String :=
  let nm := if spot.name = "" then "Unnamed Cave" else spot.name
  let dmg :=
    match spot.caveDamage with
    | some s => if s = "" then "Unknown" else s
    | none => "Unknown"
  ([some ("** " ++ toString (idx + 1) ++ ". " ++ nm ++ "**"),
    some ("- Coords: " ++ toString spot.y ++ ", " ++ toString spot.x ++ "\n"),
    some ("- Cave Damage: " ++ dmg ++ "\n"),
    (match spot.description with
     | some d => if d ≠ "" then some ("Description:\n```\n" ++ d ++ "\n```\n") else none
     | none => none),
    (match spot.videoUrl with
     | some u => if u ≠ "" then some ("Video:\n " ++ u ++ "\n") else none
     | none => none)] : List (Option String)).filterMap id

/-- `formatCaveText` of the caves command: the parts joined with the empty
separator (`.join('')`). -/
def formatCaveTextCaves (spot : Spot) (idx : Nat) : String :=
  String.join (formatCaveCavesParts spot idx)

/-- Recognizes a damage line: text beginning with the `- Cave Damage:`
label. -/
def startsWithDamage (s : String) : Bool :=
  "- Cave Damage:".data.isPrefixOf s.data

/-- One message sent to the channel by the synchronization loop. -/
inductive Sent where
  | chanHeader (content : String)
  | catHeader (content : String)
  | bodyMsg (content : String) (withFile : Bool)
  | sepMsg
  | footerMsg (more : Int)
deriving DecidableEq, Repr

/-- Result of the emitting loop: the messages sent in order, the spots left
unprocessed when the cap truncated the loop, and the final value of the
`messageCount` counter. -/
structure SendResult where
  sends : List Sent
  remaining : List Spot
  finalCount : Nat
deriving Repr

/-- The plain (no attachment) message for one spot: the separator line is
appended unless the spot carries an external (non-Supabase) video link.
`isSup` abstracts `isSupabasePublicUrl`, which depends on environment
variables. -/
def plainBody (isSup : String → Bool) (spot : Spot) (idx : Nat) : Sent :=
  let base := formatCaveText spot idx
  let hasExternalVideoLink : Bool :=
    match spot.videoUrl with
    | some u => decide (0 < u.length) && ! isSup u
    | none => false
  Sent.bodyMsg
    (if hasExternalVideoLink then base else base ++ "\n--------------------------------") false

/-- One-to-one model of the message-emitting loop shared by `updateChannel`
(`src/unnamed/part_002`) and `executeCavesCommand` (`src/unnamed/part_001`).
State: the spots still to process, `lastType`, the per-category index `idx`,
and the running `messageCount` (`mc`).  `total` is `spots.length` of the
whole sorted array; `fetchOk` abstracts whether downloading a video file
succeeds.  Once `mc` reaches the `maxMessages` cap of 50, the loop sends the
single footer and stops. -/
def sendSpots (fetchOk : String → Bool) (isSup : String → Bool) (total : Nat) :
    List Spot → Option String → Nat → Nat → SendResult
  | [], _, _, mc => ⟨[], [], mc⟩
  | spot :: rest, lastType, idx, mc =>
    if 50 ≤ mc then
      ⟨[Sent.footerMsg ((total : Int) - (mc : Int))], spot :: rest, mc⟩
    else
      let changed : Bool := some spot.type != lastType
      let headerSends : List Sent :=
        if changed then
          [Sent.catHeader ("# *————— " ++ (if spot.type = "" then "Unknown" else spot.type) ++ " —————*\n")]
        else []
      let lastType2 := if changed then some spot.type else lastType
      let idx2 := if changed then 0 else idx
      let mc2 := if changed then mc + 1 else mc
      let body : List Sent × Nat :=
        match spot.videoFile with
        | some f =>
          if f = "" then ([plainBody isSup spot idx2], 1)
          else if isVideoFile f then
            if fetchOk f then
              ([Sent.bodyMsg (formatCaveText spot idx2) true, Sent.sepMsg], 2)
            else
              ([Sent.bodyMsg
                  (formatCaveText spot idx2 ++ "\n[Failed to attach video file]\n--------------------------------")
                  false], 1)
          else ([plainBody isSup spot idx2], 1)
        | none => ([plainBody isSup spot idx2], 1)
      let r := sendSpots fetchOk isSup total rest lastType2 (idx2 + 1) (mc2 + body.2)
      ⟨headerSends ++ body.1 ++ r.sends, r.remaining, r.finalCount⟩

/-- The render-and-emit stage of `updateChannel`: sort the spots, send the
dataset header (counted as the initial `messageCount = 1`), then run the
capped loop. -/
def updateChannelSends (fetchOk : String → Bool) (isSup : String → Bool)
    (server mapName : String) (spots : List Spot) : SendResult :=
  let sorted := sortSpots spots
  let r := sendSpots fetchOk isSup sorted.length sorted none 0 1
  ⟨Sent.chanHeader ("__***# " ++ server ++ " - " ++ mapName ++ "***__\n") :: r.sends,
   r.remaining, r.finalCount⟩

/-- Count of emitted messages attributable to records: every send except the
dataset header and the truncation footer. -/
def recordSends (l : List Sent) : Nat :=
  l.countP fun m =>
    match m with
    | Sent.chanHeader _ => false
    | Sent.footerMsg _ => false
    | _ => true

/-- The values carried by the truncation footers in a send list, in order. -/
def footerVals (l : List Sent) : List Int :=
  l.filterMap fun m =>
    match m with
    | Sent.footerMsg v => some v
    | _ => none

/-- Discord bulk-delete age ceiling: 14 days in milliseconds. -/
def bulkDeleteWindowMs : Nat := 14 * 24 * 60 * 60 * 1000

/-- One-to-one model of the channel-clearing loop of `updateChannel`
(`src/unnamed/part_002`) and `executeUpdateCommand` (`src/unnamed/part_003`).
Messages are represented by their creation timestamps in milliseconds,
newest first, and `now` models `Date.now()`.  Each iteration fetches up to
100 messages, bulk-deletes the fetched messages younger than the age
ceiling (the older ones stay), and stops when the fetch returned nothing or
fewer than 100 messages.  The result is the list of nonempty fetched batch
sizes; `none` means the iteration bound (`fuel`) was exhausted before the
loop stopped, so termination within `fuel` iterations is `isSome`. -/
def clearBatches (now : Nat) : Nat → List Nat → Option (List Nat)
  | 0, _ => none
  | fuel + 1, msgs =>
    let batch := msgs.take 100
    if batch.length = 0 then some []
    else
      let keep := batch.filter fun ts => ! decide (now - ts < bulkDeleteWindowMs)
      let rest := keep ++ msgs.drop 100
      if batch.length < 100 then some [batch.length]
      else
        match clearBatches now fuel rest with
        | none => none
        | some sizes => some (batch.length :: sizes)

/-- The five stages of one single-channel synchronization flow. -/
inductive SyncStep where
  | resolve | fetch | render | clear | emit
deriving DecidableEq, BEq, Repr

/-- Stage order of `updateChannel` (`src/unnamed/part_002`, lines 318-355):
catalog fetch first, then the sort (render preparation), then the delete
loop, then message emission.  `clearOk` abstracts whether the delete loop
throws; an empty fetch result and a failed clear are early exits. -/
def updateChannelSteps (spots : List Spot) (clearOk : Bool) : List SyncStep :=
  SyncStep.fetch ::
    (if spots.isEmpty then []
     else SyncStep.render :: SyncStep.clear :: (if clearOk then [SyncStep.emit] else []))

/-- Stage order of the single-channel (`here`) flow of the update command:
resolve the (server, map) binding from the saved config or the header scan,
then run `updateChannel`.  `resolved` abstracts whether resolution
succeeded. -/
def executeUpdateSteps (resolved : Bool) (spots : List Spot) (clearOk : Bool) : List SyncStep :=
  SyncStep.resolve :: (if resolved then updateChannelSteps spots clearOk else [])

/-- The per-channel binding persisted by the store
(`src/unnamed/part_000`). -/
structure SavedChannelConfig where
  server : String
  map : String
deriving DecidableEq, Repr

/-- The channel-store JSON object: guild id, then channel id, to binding.
JS objects are string-keyed maps with no duplicate keys, so the store is a
two-level partial map; an absent guild is the empty inner map. -/
def Store : Type := String → String → Option SavedChannelConfig

/-- The empty store (missing or fresh `channel-store.json`). -/
def emptyStore : Store := fun _ _ => none

/-- Model of `upsertChannelConfig`: scan the bindings of the guild and drop
every other channel bound to the same (server, map) pair, then write the
binding for this channel. -/
def upsertChannelConfig (guildId channelId : String) (config : SavedChannelConfig)
    (store : Store) : Store :=
  fun g c =>
    if g = guildId then
      if c = channelId then some config
      else
        match store guildId c with
        | some saved =>
          if saved.server = config.server ∧ saved.map = config.map then none else some saved
        | none => none
    else store g c

/-- Model of `getChannelConfig`: look the binding up, `null` when absent. -/
def getChannelConfig (guildId channelId : String) (store : Store) :
    Option SavedChannelConfig :=
  store guildId channelId

/-- Outcome of processing one saved channel in update `all` mode. -/
inductive ChannelOutcome where
  /-- `channels.fetch` returned a text channel or thread and `updateChannel`
  completed. -/
  | updated
  /-- `channels.fetch` returned null or threw, or the channel has the wrong
  type (`failed++; continue`). -/
  | missing
  /-- `updateChannel` threw and the `catch` tallied the failure. -/
  | updateThrew
deriving DecidableEq, Repr

/-- Whether an outcome counts as a success. -/
def outcomeOk : ChannelOutcome → Bool
  | ChannelOutcome.updated => true
  | _ => false

/-- Tally loop of the update command in `all` mode
(`src/unnamed/part_002`, lines 236-252): each saved channel contributes
exactly one success or one failure, and a failure never stops the loop.
`outcome` abstracts the per-channel network effects.  (The JS loop walks the
entries front to back; the counts are order-independent, so the recursion
tallies the tail first.) -/
def processSavedChannels (outcome : String → ChannelOutcome) :
    List (String × SavedChannelConfig) → Nat × Nat
  | [] => (0, 0)
  | e :: rest =>
    let r := processSavedChannels outcome rest
    if outcomeOk (outcome e.1) then (r.1 + 1, r.2) else (r.1, r.2 + 1)

/-- The aggregate report sent back to the caller after `all` mode. -/
def updateAllReport (success failed : Nat) : String :=
  "✅ Update complete. Success: " ++ toString success ++ ", Failed: " ++ toString failed ++ "."

/-- One element of the JSON array answered by the catalog, as far as
`fetchMapsForServer` inspects it: a string, an object with an optional
string `map` field, or anything else. -/
inductive ApiItem where
  | str (s : String)
  | obj (mapField : Option String)
  | other
deriving DecidableEq, Repr

/-- The catalog answer to the dataset-listing query: `failure` covers a
transport error, a non-2xx status, and a body that is not an array (all of
which reach the `catch`). -/
inductive ApiResponse where
  | failure
  | success (items : List ApiItem)
deriving DecidableEq, Repr

/-- The usable dataset names extracted from a response: the string items and
the string `map` fields (`.map(...).filter(m => typeof m === 'string')`). -/
def usableMapNames : ApiResponse → List String
  | ApiResponse.failure => []
  | ApiResponse.success items =>
    items.filterMap fun it =>
      match it with
      | ApiItem.str s => some s
      | ApiItem.obj m => m
      | ApiItem.other => none

/-- Helper for `uniqueFirst`: keep the first occurrence of each name. -/
def dedupSeen (seen : List String) : List String → List String
  | [] => []
  | s :: rest => if s ∈ seen then dedupSeen seen rest else s :: dedupSeen (s :: seen) rest

/-- Model of `Array.from(new Set(maps))`: insertion-order deduplication. -/
def uniqueFirst (l : List String) : List String := dedupSeen [] l

/-- The hardcoded fallback list of `fetchMapsForServer` in
`src/services/apiService.ts`. -/
def fallbackMaps : List String :=
  ["The Island", "The Center", "Scorched Earth", "Ragnarok", "Aberration", "Extinction",
   "Valguero", "Genesis: Part 1", "Crystal Isles", "Genesis: Part 2", "Lost Island", "Fjordur"]

/-- Model of `fetchMapsForServer`: the HTTP call and JSON decoding are
abstracted into the `ApiResponse` argument.  On failure, or when no usable
names were derived, the fixed fallback list is returned; otherwise the
deduplicated names. -/
def fetchMapsForServer (resp : ApiResponse) : List String :=
  match resp with
  | ApiResponse.failure => fallbackMaps
  | ApiResponse.success items =>
    let unique := uniqueFirst (usableMapNames (ApiResponse.success items))
    if 0 < unique.length then unique else fallbackMaps

/-- The failure condition of the dataset listing as the claim states it:
network or HTTP failure, or a response shape yielding no usable names. -/
def datasetListingFailed (resp : ApiResponse) : Prop :=
  resp = ApiResponse.failure ∨ usableMapNames resp = []

/-- The transport-side state of one autocomplete interaction: whether it has
been responded to, and the payloads that reached the transport (each payload
listed by its choice names; the code sends each choice as name = value). -/
structure AutoTransport where
  responded : Bool
  payloads : List (List String)
deriving DecidableEq, Repr

/-- Model of `interaction.respond`: emit one payload and mark the
interaction responded. -/
def respondAuto (t : AutoTransport) (choices : List String) : AutoTransport :=
  { responded := true, payloads := t.payloads ++ [choices] }

/-- One inbound autocomplete request: the focused option and its current
value. -/
structure AutoRequest where
  focusedName : String
  focusedValue : String
deriving DecidableEq, Repr

/-- The filter of `handleCavesAutocomplete`:
`m.toLowerCase().includes(value.toLowerCase())`. -/
def matchesMap (value m : String) : Bool :=
  stringIncludes (jsToLower m) (jsToLower value)

/-- Model of `handleCavesAutocomplete` (`src/unnamed/part_001`): an already
responded interaction is skipped before any respond call; the `map` field
gets the filtered map list, any other focused field the empty list. -/
def handleCavesAutocomplete (req : AutoRequest) (t : AutoTransport) : AutoTransport :=
  if t.responded then t
  else if req.focusedName = "map" then
    respondAuto t (validMaps.filter fun m => matchesMap req.focusedValue m)
  else respondAuto t []

/-- Test vector for the cap analysis: an ordinary spot of category `a`. -/
def capSpotA : Spot :=
  { name := "a", x := 10, y := 20, type := "a", map := "The Island", server := "INX" }

/-- Test vector: one spot of category `b` carrying a video file, so that its
iteration emits a category header, a body with attachment and a separator. -/
def capSpotB : Spot :=
  { name := "b", x := 10, y := 20, type := "b", map := "The Island", server := "INX",
    videoFile := some "v.mp4" }

/-- Test vector: an ordinary spot of category `c`. -/
def capSpotC : Spot :=
  { name := "c", x := 10, y := 20, type := "c", map := "The Island", server := "INX" }

/-- Test vector of 53 spots, already in sorted order: 47 of category `a`,
one video-file spot of category `b`, five of category `c`. -/
def capSpots : List Spot :=
  List.replicate 47 capSpotA ++ [capSpotB] ++ List.replicate 5 capSpotC

/-- Test vector: a record whose damage descriptor is the literal
`Nothing`. -/
def nothingSpot : Spot :=
  { name := "A", x := 10, y := 20, type := "cave", map := "The Island", server := "INX",
    caveDamage := some "Nothing" }

/-- Test vector: a generic record for exercising the flow traces. -/
def sampleSpot : Spot :=
  { name := "A", x := 0, y := 0, type := "cave", map := "The Island", server := "INX" }

/-! Helper lemmas. -/

/-- Characters with equal code points are equal. -/
theorem char_eq_of_toNat_eq {a b : Char} (h : a.toNat = b.toNat) : a = b :=
  Char.eq_of_val_eq (UInt32.eq_of_val_eq (Fin.ext h))

/-- Strings with equal character lists are equal. -/
theorem string_eq_of_data_eq {s t : String} (h : s.data = t.data) : s = t := by
  cases s; cases t; simp_all

/-- Comparing a list with itself yields 0. -/
theorem cmpChars_self : ∀ l : List Char, cmpChars l l = 0
  | [] => rfl
  | a :: t => by simp [cmpChars, cmpChars_self t]

/-- Swapping the arguments flips the sign of the comparison. -/
theorem cmpChars_swap : ∀ a b : List Char, cmpChars b a = - cmpChars a b := by
  intro a
  induction a with
  | nil => intro b; cases b <;> simp [cmpChars]
  | cons x xs ih =>
    intro b
    cases b with
    | nil => simp [cmpChars]
    | cons y ys =>
      rcases Nat.lt_trichotomy x.toNat y.toNat with h | h | h
      · have h2 : ¬ y.toNat < x.toNat := by omega
        simp [cmpChars, h, h2]
      · have h2 : ¬ x.toNat < y.toNat := by omega
        have h3 : ¬ y.toNat < x.toNat := by omega
        simp [cmpChars, h2, h3, ih]
      · have h2 : ¬ x.toNat < y.toNat := by omega
        simp [cmpChars, h, h2]

/-- A zero comparison means the lists are equal. -/
theorem cmpChars_eq_zero : ∀ a b : List Char, cmpChars a b = 0 → a = b := by
  intro a
  induction a with
  | nil => intro b h; cases b with
    | nil => rfl
    | cons y ys => simp [cmpChars] at h
  | cons x xs ih =>
    intro b h
    cases b with
    | nil => simp [cmpChars] at h
    | cons y ys =>
      by_cases h1 : x.toNat < y.toNat
      · simp [cmpChars, h1] at h
      · by_cases h2 : y.toNat < x.toNat
        · simp [cmpChars, h1, h2] at h
        · have hx : x = y := char_eq_of_toNat_eq (by omega)
          have ht : xs = ys := ih ys (by simpa [cmpChars, h1, h2] using h)
          rw [hx, ht]

/-- The at-most order induced by the comparison is transitive. -/
theorem cmpChars_le_trans : ∀ a b c : List Char,
    cmpChars a b ≤ 0 → cmpChars b c ≤ 0 → cmpChars a c ≤ 0 := by
  intro a
  induction a with
  | nil =>
    intro b c _ _
    cases c <;> simp [cmpChars]
  | cons x xs ih =>
    intro b c h1 h2
    cases b with
    | nil => simp [cmpChars] at h1
    | cons y ys =>
      cases c with
      | nil => simp [cmpChars] at h2
      | cons z zs =>
        by_cases hxy : x.toNat < y.toNat
        · by_cases hyz : y.toNat < z.toNat
          · have hxz : x.toNat < z.toNat := by omega
            simp [cmpChars, hxz]
          · by_cases hzy : z.toNat < y.toNat
            · simp [cmpChars, hyz, hzy] at h2
            · have hxz : x.toNat < z.toNat := by omega
              simp [cmpChars, hxz]
        · by_cases hyx : y.toNat < x.toNat
          · simp [cmpChars, hxy, hyx] at h1
          · by_cases hyz : y.toNat < z.toNat
            · have hxz : x.toNat < z.toNat := by omega
              simp [cmpChars, hxz]
            · by_cases hzy : z.toNat < y.toNat
              · simp [cmpChars, hyz, hzy] at h2
              · have hxz : ¬ x.toNat < z.toNat := by omega
                have hzx : ¬ z.toNat < x.toNat := by omega
                simp only [cmpChars, hxy, hyx, if_false, if_neg] at h1
                simp only [cmpChars, hyz, hzy, if_false, if_neg] at h2
                simp only [cmpChars, hxz, hzx, if_false, if_neg]
                exact ih ys zs (by simpa using h1) (by simpa using h2)

/-- Mutual at-most comparisons force equality. -/
theorem cmpChars_le_antisymm {a b : List Char}
    (h1 : cmpChars a b ≤ 0) (h2 : cmpChars b a ≤ 0) : a = b := by
  have hs := cmpChars_swap a b
  exact cmpChars_eq_zero a b (by omega)

/-- The at-most order is total. -/
theorem cmpChars_le_total (a b : List Char) : cmpChars a b ≤ 0 ∨ cmpChars b a ≤ 0 := by
  have hs := cmpChars_swap a b
  omega

/-! Claim C5 and C10: the channel-binding store. -/

/-- C5: within a guild at most one channel binds a given (server, map) pair:
after binding the pair to `c1` and then to a different channel `c2`, reading
`c1` yields null and reading `c2` yields the pair. -/
theorem binding_unique_per_pair (store : Store) (g c1 c2 S M : String) (h : c1 ≠ c2) :
    getChannelConfig g c1 (upsertChannelConfig g c2 ⟨S, M⟩
        (upsertChannelConfig g c1 ⟨S, M⟩ store)) = none
    ∧ getChannelConfig g c2 (upsertChannelConfig g c2 ⟨S, M⟩
        (upsertChannelConfig g c1 ⟨S, M⟩ store)) = some ⟨S, M⟩ := by
  constructor
  · simp [getChannelConfig, upsertChannelConfig, h]
  · simp [getChannelConfig, upsertChannelConfig]

/-- Witness for C5 at a concrete store and concrete ids. -/
theorem binding_unique_per_pair_witness :
    (("c1" : String) ≠ "c2")
    ∧ getChannelConfig "g" "c1" (upsertChannelConfig "g" "c2" ⟨"INX", "Ragnarok"⟩
        (upsertChannelConfig "g" "c1" ⟨"INX", "Ragnarok"⟩ emptyStore)) = none
    ∧ getChannelConfig "g" "c2" (upsertChannelConfig "g" "c2" ⟨"INX", "Ragnarok"⟩
        (upsertChannelConfig "g" "c1" ⟨"INX", "Ragnarok"⟩ emptyStore)) = some ⟨"INX", "Ragnarok"⟩ :=
  ⟨by decide,
   (binding_unique_per_pair emptyStore "g" "c1" "c2" "INX" "Ragnarok" (by decide)).1,
   (binding_unique_per_pair emptyStore "g" "c1" "c2" "INX" "Ragnarok" (by decide)).2⟩

/-- C10: writing a binding and reading it back yields the binding, and the
eviction scan skips the channel being written, so the upsert is
idempotent. -/
theorem upsert_put_get_idempotent (store : Store) (g c : String) (b : SavedChannelConfig) :
    getChannelConfig g c (upsertChannelConfig g c b store) = some b
    ∧ upsertChannelConfig g c b (upsertChannelConfig g c b store)
        = upsertChannelConfig g c b store := by
  refine ⟨by simp [getChannelConfig, upsertChannelConfig], ?_⟩
  funext g2 c2
  by_cases hg : g2 = g
  · subst hg
    by_cases hc : c2 = c
    · subst hc; simp [upsertChannelConfig]
    · cases hs : store g2 c2 with
      | none => simp [upsertChannelConfig, hc, hs]
      | some saved =>
        by_cases hm : saved.server = b.server ∧ saved.map = b.map
        · simp [upsertChannelConfig, hc, hs, hm]
        · simp [upsertChannelConfig, hc, hs, hm]
  · simp [upsertChannelConfig, hg]

/-! Claim C6: per-channel isolation of update `all` mode. -/

/-- C6: every saved channel is tallied as exactly one success or one
failure, whatever the outcome of the other channels, and the totals cover
all entries; the final report carries only the two aggregate counts. -/
theorem update_all_tally (outcome : String → ChannelOutcome)
    (entries : List (String × SavedChannelConfig)) :
    processSavedChannels outcome entries
      = (entries.countP (fun e => outcomeOk (outcome e.1)),
         entries.countP (fun e => ! outcomeOk (outcome e.1)))
    ∧ (processSavedChannels outcome entries).1 + (processSavedChannels outcome entries).2
        = entries.length := by
  have key : processSavedChannels outcome entries
      = (entries.countP (fun e => outcomeOk (outcome e.1)),
         entries.countP (fun e => ! outcomeOk (outcome e.1))) := by
    induction entries with
    | nil => simp [processSavedChannels]
    | cons e rest ih =>
      cases h : outcomeOk (outcome e.1) <;>
        simp [processSavedChannels, ih, List.countP_cons, h]
  have sum : ∀ l : List (String × SavedChannelConfig),
      (processSavedChannels outcome l).1 + (processSavedChannels outcome l).2 = l.length := by
    intro l
    induction l with
    | nil => simp [processSavedChannels]
    | cons e rest ih =>
      cases h : outcomeOk (outcome e.1) <;> simp [processSavedChannels, h] <;> omega
  exact ⟨key, sum entries⟩

/-! Claim C7: the clearing loop on 250 fresh messages. -/

/-- When at least 100 messages remain and all are younger than the age
ceiling, one iteration fetches a full batch of 100, deletes it, and
recurses on the rest. -/
theorem clearBatches_step_continue (now fuel : Nat) (msgs : List Nat)
    (h : 100 ≤ msgs.length)
    (hy : ∀ ts ∈ msgs, now - ts < bulkDeleteWindowMs) :
    clearBatches now (fuel + 1) msgs =
      match clearBatches now fuel (msgs.drop 100) with
      | none => none
      | some sizes => some (100 :: sizes) := by
  have hb : (msgs.take 100).length = 100 := by
    simp [List.length_take]
    omega
  have hkeep : (msgs.take 100).filter (fun ts => ! decide (now - ts < bulkDeleteWindowMs)) = [] := by
    apply List.filter_eq_nil_iff.mpr
    intro a ha
    simp [hy a (List.take_subset _ _ ha)]
  simp [clearBatches, hb, hkeep]

/-- When between 1 and 99 messages remain, one iteration fetches them all
and the loop stops, recording that final batch size. -/
theorem clearBatches_step_last (now fuel : Nat) (msgs : List Nat)
    (h0 : msgs ≠ []) (h : msgs.length < 100) :
    clearBatches now (fuel + 1) msgs = some [msgs.length] := by
  have hb : (msgs.take 100).length = msgs.length := by
    simp [List.length_take]
    omega
  have hne : ¬ msgs.length = 0 := by
    simpa [List.length_eq_zero] using h0
  simp [clearBatches, hb, hne, h]

/-- C7: on a channel holding exactly 250 messages, all younger than the
14-day ceiling, the clearing loop performs exactly the batches 100, 100, 50
and terminates (3 iterations suffice). -/
theorem clear_terminates_on_250 (now : Nat) (msgs : List Nat)
    (hlen : msgs.length = 250)
    (hy : ∀ ts ∈ msgs, now - ts < bulkDeleteWindowMs) :
    clearBatches now 3 msgs = some [100, 100, 50] := by
  have hy1 : ∀ ts ∈ msgs.drop 100, now - ts < bulkDeleteWindowMs :=
    fun ts hts => hy ts (List.drop_subset _ _ hts)
  have hy2 : ∀ ts ∈ (msgs.drop 100).drop 100, now - ts < bulkDeleteWindowMs :=
    fun ts hts => hy1 ts (List.drop_subset _ _ hts)
  have l1 : (msgs.drop 100).length = 150 := by simp [hlen]
  have l2 : ((msgs.drop 100).drop 100).length = 50 := by simp [hlen]
  have hne : (msgs.drop 100).drop 100 ≠ [] := by
    intro hh
    rw [hh] at l2
    simp at l2
  have e1 := clearBatches_step_continue now 2 msgs (by omega) hy
  have e2 := clearBatches_step_continue now 1 (msgs.drop 100) (by omega) hy1
  have e3 := clearBatches_step_last now 0 ((msgs.drop 100).drop 100) hne (by omega)
  rw [l2] at e3
  norm_num at e1 e2 e3
  rw [e1, e2, e3]

/-- Witness for C7 on 250 concrete messages created at the current
instant. -/
theorem clear_terminates_on_250_witness :
    (List.replicate 250 (0 : Nat)).length = 250
    ∧ clearBatches 0 3 (List.replicate 250 (0 : Nat)) = some [100, 100, 50] := by
  refine ⟨List.length_replicate 250 0,
    clear_terminates_on_250 0 (List.replicate 250 0) (List.length_replicate 250 0) ?_⟩
  intro ts hts
  rw [List.eq_of_mem_replicate hts]
  decide

/-! Claim C8: the dataset-listing fallback. -/

/-- C8: when the dataset-listing call fails or yields no usable names, the
fixed fallback list is returned verbatim, and the result is never empty. -/
theorem dataset_fallback (resp : ApiResponse) :
    (datasetListingFailed resp → fetchMapsForServer resp = fallbackMaps)
    ∧ fetchMapsForServer resp ≠ [] := by
  constructor
  · intro h
    cases resp with
    | failure => rfl
    | success items =>
      rcases h with h | h
      · exact absurd h (by simp)
      · simp [fetchMapsForServer, h, uniqueFirst, dedupSeen]
  · cases resp with
    | failure => simp [fetchMapsForServer, fallbackMaps]
    | success items =>
      rcases hu : uniqueFirst (usableMapNames (ApiResponse.success items)) with _ | ⟨a, t⟩ <;>
        simp [fetchMapsForServer, hu, fallbackMaps]

/-- Witness for C8 at the failure response. -/
theorem dataset_fallback_witness :
    fetchMapsForServer ApiResponse.failure = fallbackMaps
    ∧ fetchMapsForServer ApiResponse.failure ≠ [] :=
  ⟨(dataset_fallback ApiResponse.failure).1 (Or.inl rfl),
   (dataset_fallback ApiResponse.failure).2⟩

/-! Claim C9: the autocomplete handler. -/

/-- C9: on a not-yet-responded interaction the handler emits exactly one
payload and marks it responded; a second call is a no-op; for the map field
the payload is the case-insensitive substring filter of the valid maps. -/
theorem autocomplete_responds_once (req : AutoRequest) (t : AutoTransport)
    (h : t.responded = false) :
    (handleCavesAutocomplete req t).payloads.length = t.payloads.length + 1
    ∧ (handleCavesAutocomplete req t).responded = true
    ∧ handleCavesAutocomplete req (handleCavesAutocomplete req t) = handleCavesAutocomplete req t
    ∧ (req.focusedName = "map" →
        (handleCavesAutocomplete req t).payloads
          = t.payloads ++ [validMaps.filter fun m => matchesMap req.focusedValue m]) := by
  by_cases hn : req.focusedName = "map" <;>
    simp [handleCavesAutocomplete, respondAuto, h, hn]

/-- Witness for C9 on a fresh interaction asking for maps matching
`isl`. -/
theorem autocomplete_responds_once_witness :
    (handleCavesAutocomplete ⟨"map", "isl"⟩ ⟨false, []⟩).payloads
        = [["The Island", "Crystal Isles", "Lost Island"]]
    ∧ handleCavesAutocomplete ⟨"map", "isl"⟩ (handleCavesAutocomplete ⟨"map", "isl"⟩ ⟨false, []⟩)
        = handleCavesAutocomplete ⟨"map", "isl"⟩ ⟨false, []⟩ := by
  have h := autocomplete_responds_once ⟨"map", "isl"⟩ ⟨false, []⟩ rfl
  refine ⟨?_, h.2.2.1⟩
  rw [h.2.2.2 rfl]
  decide

/-! Claim C4: stage order of the synchronization flow. -/

/-- C4 counterexample: the single-channel flow with a successful resolve,
one fetched spot and a successful clear runs resolve, fetch, render, clear,
emit in that order; in particular the catalog fetch comes strictly before
the clear, contradicting the claimed resolve-clear-fetch order. -/
theorem update_flow_counterexample :
    executeUpdateSteps true [sampleSpot] true
        = [SyncStep.resolve, SyncStep.fetch, SyncStep.render, SyncStep.clear, SyncStep.emit]
    ∧ (executeUpdateSteps true [sampleSpot] true).indexOf SyncStep.fetch
        < (executeUpdateSteps true [sampleSpot] true).indexOf SyncStep.clear := by
  constructor
  · rfl
  · decide

/-- C4 amended: the stages are strictly sequential in the order resolve,
fetch, render, clear, emit (every trace is an order-preserving prefix
pattern of that sequence, with early exits), and the happy path runs all
five stages. -/
theorem update_flow_order_amended :
    (∀ (resolved : Bool) (spots : List Spot) (clearOk : Bool),
        (executeUpdateSteps resolved spots clearOk).Sublist
          [SyncStep.resolve, SyncStep.fetch, SyncStep.render, SyncStep.clear, SyncStep.emit])
    ∧ (∀ (s : Spot) (rest : List Spot),
        executeUpdateSteps true (s :: rest) true
          = [SyncStep.resolve, SyncStep.fetch, SyncStep.render, SyncStep.clear, SyncStep.emit]) := by
  constructor
  · intro resolved spots clearOk
    cases resolved <;> cases spots <;> cases clearOk <;>
      simp [executeUpdateSteps, updateChannelSteps]
  · intro s rest
    simp [executeUpdateSteps, updateChannelSteps]

/-! Claim C3: the damage-descriptor line. -/

/-- The update title part never reads as a damage line. -/
theorem swd_title (r : String) : startsWithDamage ("## ** " ++ r) = false := by
  simp only [startsWithDamage, String.data_append]
  rfl

/-- The caves title part never reads as a damage line. -/
theorem swd_star (r : String) : startsWithDamage ("** " ++ r) = false := by
  simp only [startsWithDamage, String.data_append]
  rfl

/-- The coordinates part never reads as a damage line. -/
theorem swd_coords (r : String) : startsWithDamage ("- Coords: " ++ r) = false := by
  simp only [startsWithDamage, String.data_append]
  rfl

/-- The damage part always reads as a damage line. -/
theorem swd_damage (r : String) : startsWithDamage ("- Cave Damage: " ++ r) = true := by
  simp only [startsWithDamage, String.data_append]
  rfl

/-- The folded damage part with the Unknown fallback reads as a damage
line. -/
theorem swd_damage_unknown : startsWithDamage "- Cave Damage: Unknown\n" = true := by
  decide

/-- The update description part never reads as a damage line. -/
theorem swd_desc_nl (r : String) : startsWithDamage ("\nDescription:\n```\n" ++ r) = false := by
  simp only [startsWithDamage, String.data_append]
  rfl

/-- The caves description part never reads as a damage line. -/
theorem swd_desc (r : String) : startsWithDamage ("Description:\n```\n" ++ r) = false := by
  simp only [startsWithDamage, String.data_append]
  rfl

/-- The video part never reads as a damage line. -/
theorem swd_video (r : String) : startsWithDamage ("Video:\n " ++ r) = false := by
  simp only [startsWithDamage, String.data_append]
  rfl

/-- C3 counterexample: a descriptor equal, case-insensitively, to the
literal `nothing` still produces a damage line in the caves renderer. -/
theorem damage_line_counterexample :
    jsToLower (jsTrim "Nothing") = "nothing"
    ∧ (formatCaveCavesParts nothingSpot 0).countP startsWithDamage = 1 := by
  decide

/-- C3 amended: in the update renderer the body has a damage line exactly
when the trimmed descriptor is nonempty and differs case-insensitively from
`nothing`, and that single line carries the trimmed descriptor; the caves
renderer always emits exactly one damage line. -/
theorem damage_line_amended (spot : Spot) (idx : Nat) :
    ((formatCaveParts spot idx).countP startsWithDamage
        = match spot.caveDamage with
          | none => 0
          | some s => if jsTrim s ≠ "" ∧ jsToLower (jsTrim s) ≠ "nothing" then 1 else 0)
    ∧ (∀ s, spot.caveDamage = some s → jsTrim s ≠ "" → jsToLower (jsTrim s) ≠ "nothing" →
        ("- Cave Damage: " ++ jsTrim s) ∈ formatCaveParts spot idx)
    ∧ (formatCaveCavesParts spot idx).countP startsWithDamage = 1 := by
  refine ⟨?_, ?_, ?_⟩
  · rcases hcd : spot.caveDamage with _ | s <;>
      rcases hde : spot.description with _ | d <;>
        rcases hvu : spot.videoUrl with _ | u <;>
          simp only [formatCaveParts, hcd, hde, hvu, Option.map] <;>
            split_ifs <;>
              simp_all [List.filterMap_cons, List.countP_cons, String.append_assoc,
                swd_title, swd_coords, swd_damage, swd_desc_nl, swd_video]
  · intro s hs hne hnot
    rcases hde : spot.description with _ | d <;>
      rcases hvu : spot.videoUrl with _ | u <;>
        simp only [formatCaveParts, hs, hde, hvu, Option.map] <;>
          split_ifs <;>
            simp_all [List.filterMap_cons]
  · rcases hcd : spot.caveDamage with _ | s <;>
      rcases hde : spot.description with _ | d <;>
        rcases hvu : spot.videoUrl with _ | u <;>
          simp only [formatCaveCavesParts, hcd, hde, hvu] <;>
            split_ifs <;>
              simp_all [List.filterMap_cons, List.countP_cons, String.append_assoc,
                swd_star, swd_coords, swd_damage, swd_damage_unknown, swd_desc, swd_video]

/-! Claim C1: the sort. -/

/-- The comparator order is transitive. -/
theorem spotLe_trans (a b c : Spot) (h1 : spotLe a b = true) (h2 : spotLe b c = true) :
    spotLe a c = true := by
  simp only [spotLe, decide_eq_true_eq] at h1 h2 ⊢
  by_cases fa : a.type = "farm"
  · by_cases fb : b.type = "farm"
    · by_cases fc : c.type = "farm"
      · simp [compareSpots, fa, fb, localeCompare] at h1
        simp [compareSpots, fb, fc, localeCompare] at h2
        simp [compareSpots, fa, fc, localeCompare]
        exact cmpChars_le_trans _ _ _ h1 h2
      · simp [compareSpots, fb, fc, localeCompare] at h2
    · simp [compareSpots, fa, fb, localeCompare] at h1
  · by_cases fc : c.type = "farm"
    · simp [compareSpots, fa, fc, localeCompare]
    · by_cases fb : b.type = "farm"
      · simp [compareSpots, fb, fc, localeCompare] at h2
      · by_cases tab : a.type = b.type
        · by_cases tbc : b.type = c.type
          · have tac : a.type = c.type := tab.trans tbc
            simp [compareSpots, fa, fb, tab, localeCompare] at h1
            simp [compareSpots, fb, fc, tbc, localeCompare] at h2
            simp [compareSpots, fa, fc, tac, localeCompare]
            exact cmpChars_le_trans _ _ _ h1 h2
          · have tac : ¬ a.type = c.type := by rw [tab]; exact tbc
            simp [compareSpots, fb, fc, tbc, localeCompare] at h2
            simp [compareSpots, fa, fc, tac, localeCompare]
            rw [tab]
            exact h2
        · by_cases tbc : b.type = c.type
          · have tac : ¬ a.type = c.type := by rw [← tbc]; exact tab
            simp [compareSpots, fa, fb, tab, localeCompare] at h1
            simp [compareSpots, fa, fc, tac, localeCompare]
            rw [← tbc]
            exact h1
          · simp [compareSpots, fa, fb, tab, localeCompare] at h1
            simp [compareSpots, fb, fc, tbc, localeCompare] at h2
            by_cases tac : a.type = c.type
            · exfalso
              rw [← tac] at h2
              exact tab (string_eq_of_data_eq (cmpChars_le_antisymm h1 h2))
            · simp [compareSpots, fa, fc, tac, localeCompare]
              exact cmpChars_le_trans _ _ _ h1 h2

/-- The comparator order is total. -/
theorem spotLe_total (a b : Spot) : (spotLe a b || spotLe b a) = true := by
  simp only [spotLe, Bool.or_eq_true, decide_eq_true_eq]
  by_cases fa : a.type = "farm"
  · by_cases fb : b.type = "farm"
    · simp [compareSpots, fa, fb, localeCompare]
      have := cmpChars_swap a.name.data b.name.data
      omega
    · right
      simp [compareSpots, fa, fb, localeCompare]
  · by_cases fb : b.type = "farm"
    · left
      simp [compareSpots, fa, fb, localeCompare]
    · by_cases tab : a.type = b.type
      · simp [compareSpots, fa, fb, tab, localeCompare]
        have := cmpChars_swap a.name.data b.name.data
        omega
      · have tba : ¬ b.type = a.type := fun hh => tab hh.symm
        simp [compareSpots, fa, fb, tab, tba, localeCompare]
        have := cmpChars_swap a.type.data b.type.data
        omega

/-- The output of the sort is pairwise ordered under the comparator. -/
theorem sortSpots_pairwise (l : List Spot) :
    (sortSpots l).Pairwise fun a b => spotLe a b = true :=
  List.sorted_mergeSort (fun a b c h1 h2 => spotLe_trans a b c h1 h2)
    (fun a b => spotLe_total a b) l

/-- C1: the sort puts every farm record after every non-farm record; within
equal farm priority the output ascends by (type, name) under code-point
comparison; and the sort is stable — records with equal (type, name) keys
keep their original relative order (so equal inputs give equal outputs). -/
theorem render_sort_spec (l : List Spot) :
    ((sortSpots l).Pairwise fun a b => ¬ (a.type = "farm" ∧ b.type ≠ "farm"))
    ∧ ((sortSpots l).Pairwise fun a b =>
        ((a.type = "farm") ↔ (b.type = "farm")) →
          localeCompare a.type b.type < 0
          ∨ (a.type = b.type ∧ localeCompare a.name b.name ≤ 0))
    ∧ (∀ t n : String,
        (sortSpots l).filter (fun s => decide (s.type = t ∧ s.name = n))
          = l.filter fun s => decide (s.type = t ∧ s.name = n)) := by
  refine ⟨?_, ?_, ?_⟩
  · refine (sortSpots_pairwise l).imp ?_
    intro a b h hcon
    obtain ⟨fa, fb⟩ := hcon
    simp only [spotLe, decide_eq_true_eq] at h
    simp [compareSpots, fa, fb, localeCompare] at h
  · refine (sortSpots_pairwise l).imp ?_
    intro a b h hiff
    simp only [spotLe, decide_eq_true_eq] at h
    by_cases fa : a.type = "farm"
    · have fb : b.type = "farm" := hiff.mp fa
      have tab : a.type = b.type := fa.trans fb.symm
      right
      refine ⟨tab, ?_⟩
      simp [compareSpots, fa, fb, localeCompare] at h
      simpa [localeCompare] using h
    · have fb : ¬ b.type = "farm" := fun hb => fa (hiff.mpr hb)
      by_cases tab : a.type = b.type
      · right
        refine ⟨tab, ?_⟩
        simp [compareSpots, fa, fb, tab, localeCompare] at h
        simpa [localeCompare, tab] using h
      · left
        simp [compareSpots, fa, fb, tab, localeCompare] at h
        have hne : cmpChars a.type.data b.type.data ≠ 0 :=
          fun hz => tab (string_eq_of_data_eq (cmpChars_eq_zero _ _ hz))
        simp only [localeCompare]
        omega
  · intro t n
    have hsub : List.Sublist (l.filter fun s => decide (s.type = t ∧ s.name = n)) l :=
      List.filter_sublist l
    have hpw : (l.filter fun s => decide (s.type = t ∧ s.name = n)).Pairwise
        fun a b => spotLe a b = true := by
      apply List.pairwise_of_forall_mem_list
      intro a ha b hb
      have ha2 := (List.mem_filter.mp ha).2
      have hb2 := (List.mem_filter.mp hb).2
      simp only [decide_eq_true_eq] at ha2 hb2
      obtain ⟨hat, han⟩ := ha2
      obtain ⟨hbt, hbn⟩ := hb2
      have htt : a.type = b.type := hat.trans hbt.symm
      have hnn : a.name = b.name := han.trans hbn.symm
      simp [spotLe, compareSpots, htt, hnn, localeCompare, cmpChars_self]
    have h2 : List.Sublist (l.filter fun s => decide (s.type = t ∧ s.name = n)) (sortSpots l) :=
      List.sublist_mergeSort (fun a b c h1 h2 => spotLe_trans a b c h1 h2)
        (fun a b => spotLe_total a b) hpw hsub
    have h4 := List.Sublist.filter (fun s => decide (s.type = t ∧ s.name = n)) h2
    have h5 : ((l.filter fun s => decide (s.type = t ∧ s.name = n)).filter
        fun s => decide (s.type = t ∧ s.name = n))
        = l.filter fun s => decide (s.type = t ∧ s.name = n) :=
      List.filter_eq_self.mpr fun a ha => (List.mem_filter.mp ha).2
    rw [h5] at h4
    have hperm : ((sortSpots l).filter fun s => decide (s.type = t ∧ s.name = n)).Perm
        (l.filter fun s => decide (s.type = t ∧ s.name = n)) :=
      (List.mergeSort_perm l spotLe).filter _
    exact (h4.eq_of_length hperm.length_eq.symm).symm

/-! Claim C2 loop invariants. -/

theorem sendSpots_count (fetchOk isSup : String → Bool) (total : Nat) :
    ∀ (spots : List Spot) (lastType : Option String) (idx mc : Nat),
      (sendSpots fetchOk isSup total spots lastType idx mc).finalCount
        = mc + recordSends (sendSpots fetchOk isSup total spots lastType idx mc).sends := by
  intro spots
  induction spots with
  | nil => intro lt idx mc; simp [sendSpots, recordSends]
  | cons spot rest ih =>
    intro lt idx mc
    rcases hvf : spot.videoFile with _ | f <;>
      simp only [sendSpots, hvf] <;>
        split_ifs <;>
          simp [recordSends, plainBody, List.countP_append, List.countP_cons, ih] <;>
            omega

theorem sendSpots_footers (fetchOk isSup : String → Bool) (total : Nat) :
    ∀ (spots : List Spot) (lastType : Option String) (idx mc : Nat),
      footerVals (sendSpots fetchOk isSup total spots lastType idx mc).sends
        = (if (sendSpots fetchOk isSup total spots lastType idx mc).remaining.isEmpty then []
           else [(total : Int)
                  - ((sendSpots fetchOk isSup total spots lastType idx mc).finalCount : Int)]) := by
  intro spots
  induction spots with
  | nil => intro lt idx mc; simp [sendSpots, footerVals]
  | cons spot rest ih =>
    intro lt idx mc
    by_cases hcap : 50 ≤ mc
    · simp [sendSpots, hcap, footerVals]
    · rcases hvf : spot.videoFile with _ | f <;>
        simp only [sendSpots, hvf, if_neg hcap] <;>
          split_ifs <;>
            simp_all [footerVals, plainBody, List.filterMap_append, List.filterMap_cons]

theorem sendSpots_bound (fetchOk isSup : String → Bool) (total : Nat) :
    ∀ (spots : List Spot) (lastType : Option String) (idx mc : Nat),
      (sendSpots fetchOk isSup total spots lastType idx mc).finalCount ≤ max mc 52
      ∧ (50 ≤ mc → (sendSpots fetchOk isSup total spots lastType idx mc).finalCount = mc) := by
  intro spots
  induction spots with
  | nil =>
    intro lt idx mc
    exact ⟨by simp [sendSpots], fun _ => by simp [sendSpots]⟩
  | cons spot rest ih =>
    intro lt idx mc
    by_cases hcap : 50 ≤ mc
    · exact ⟨by simp [sendSpots, hcap], fun _ => by simp [sendSpots, hcap]⟩
    · rcases hvf : spot.videoFile with _ | f <;>
        simp only [sendSpots, hvf, if_neg hcap] <;>
          split_ifs <;>
            (refine ⟨?_, fun hc => absurd hc hcap⟩;
             exact le_trans (ih _ _ _).1 (by omega))

/-- C2 counterexample: on 53 records (47 of one category, then one with a
video attachment in a fresh category, then 5 more) the loop emits 51
record-attributable messages, exceeding the cap of 50, and the single
footer names 1 while 5 records were actually omitted. -/
theorem update_cap_counterexample :
    recordSends (updateChannelSends (fun _ => true) (fun _ => false)
        "INX" "Ragnarok" capSpots).sends = 51
    ∧ (updateChannelSends (fun _ => true) (fun _ => false)
        "INX" "Ragnarok" capSpots).remaining.length = 5
    ∧ footerVals (updateChannelSends (fun _ => true) (fun _ => false)
        "INX" "Ragnarok" capSpots).sends = [1] := by
  have hs : sortSpots capSpots = capSpots := List.mergeSort_of_sorted (by decide)
  simp only [updateChannelSends, hs]
  decide

/-- C2 amended: record-attributable messages never exceed 51 (the cap plus
one, because an iteration entered just below the cap can add a category
header and an attachment pair); exactly one footer is emitted iff records
were left unprocessed, and it names `N` minus the final running message
count (headers included) rather than the number of omitted records. -/
theorem update_cap_amended (fetchOk isSup : String → Bool) (server mapName : String)
    (spots : List Spot) :
    recordSends (updateChannelSends fetchOk isSup server mapName spots).sends ≤ 51
    ∧ footerVals (updateChannelSends fetchOk isSup server mapName spots).sends
        = (if (updateChannelSends fetchOk isSup server mapName spots).remaining.isEmpty then []
           else [(spots.length : Int)
                  - ((updateChannelSends fetchOk isSup server mapName spots).finalCount : Int)]) := by
  have hc := sendSpots_count fetchOk isSup (sortSpots spots).length (sortSpots spots) none 0 1
  have hf := sendSpots_footers fetchOk isSup (sortSpots spots).length (sortSpots spots) none 0 1
  have hb := (sendSpots_bound fetchOk isSup (sortSpots spots).length (sortSpots spots) none 0 1).1
  have hlen : (sortSpots spots).length = spots.length :=
    (List.mergeSort_perm spots spotLe).length_eq
  constructor
  · simp only [recordSends] at hc
    simp [updateChannelSends, recordSends, List.countP_cons]
    omega
  · simp [updateChannelSends, footerVals, List.filterMap_cons]
    rw [← hlen]
    simp only [footerVals] at hf
    simp [List.isEmpty_iff] at hf
    exact hf

/-- Witness for the amended C3 at a concrete record with descriptor
` Bats `. -/
theorem damage_line_amended_witness :
    (formatCaveParts
        ⟨"A", 10, 20, "cave", "The Island", "INX", some " Bats ", none, none, none⟩ 0).countP
        startsWithDamage = 1
    ∧ ("- Cave Damage: " ++ jsTrim " Bats ") ∈ formatCaveParts
        ⟨"A", 10, 20, "cave", "The Island", "INX", some " Bats ", none, none, none⟩ 0 := by
  have h := damage_line_amended
    ⟨"A", 10, 20, "cave", "The Island", "INX", some " Bats ", none, none, none⟩ 0
  refine ⟨?_, h.2.1 " Bats " rfl (by decide) (by decide)⟩
  rw [h.1]
  decide
